import Mathlib

/-!
Verification of the Mezzofy SME Content Crawler (`main.py`, `schemas.py`).

The development shallowly embeds the crawler's source code:

* pure Python string operations (`strip`, `lower`, slicing, `in`,
  `endswith`, `startswith`) become executable Lean functions on
  `List Char` / `String`;
* `urllib.parse.urlparse` is embedded for the fragment the code uses
  (scheme and netloc extraction);
* the external collaborators (the `requests` HTTP layer, the
  BeautifulSoup DOM queries, `urllib.parse.urljoin` and the MongoDB
  `create_document` gateway) are oracles supplied in a `CrawlEnv`
  record / a `saveOk` predicate, exactly at the boundaries the design
  document draws;
* the crawl loop of `POST /crawl` becomes a well-founded recursive
  function `crawlLoop`, instrumented with ghost lists (`fetched`,
  `extracted`, `submitted`) that record which URLs were passed to
  `fetch_page` and which `Page` records were built and handed to the
  storage gateway.  The ghost fields never influence control flow.
-/

namespace Crawler

/-! ### Python string primitives, embedded on `List Char` -/

/-- Test whether `p` is a prefix of `s`
(Python `s.startswith(p)` on the underlying characters). -/
def leadsWith : List Char → List Char → Bool
  | [], _ => true
  | _ :: _, [] => false
  | a :: as, b :: bs => a == b && leadsWith as bs

/-- Python `p in s`: `p` occurs as a contiguous substring of `s`. -/
def occursIn (p : List Char) : List Char → Bool
  | [] => leadsWith p []
  | c :: rest => leadsWith p (c :: rest) || occursIn p rest

/-- Python `s.endswith(p)`: `p` is a suffix of `s`. -/
def listIsSuffix (p s : List Char) : Bool :=
  leadsWith p.reverse s.reverse

/-- Python `needle in haystack` on strings. -/
def strContains (haystack needle : String) : Bool :=
  occursIn needle.data haystack.data

/-- Python `s.endswith(suffix)` on strings. -/
def strEndsWith (s suffix : String) : Bool :=
  listIsSuffix suffix.data s.data

/-- Python `s.startswith(p)` on strings. -/
def pyStartsWith (s p : String) : Bool :=
  leadsWith p.data s.data

/-- The whitespace characters stripped by Python's `str.strip()`
(ASCII model). -/
def isPySpace (c : Char) : Bool :=
  c == ' ' || c == '\t' || c == '\n' || c == '\r'

/-- Python `s.strip()`: drop whitespace from both ends. -/
def pyStrip (s : String) : String :=
  ⟨((s.data.dropWhile isPySpace).reverse.dropWhile isPySpace).reverse⟩

/-- Python `s.lower()` (ASCII model, applied characterwise). -/
def pyLower (s : String) : String :=
  ⟨s.data.map Char.toLower⟩

/-- Python `s[:n]`: the first `n` codepoints of `s`. -/
def pyTake (n : Nat) (s : String) : String :=
  ⟨s.data.take n⟩

/-- Python `x in l` for a list of strings (also models membership in a
`set` of strings). -/
def memStr (x : String) : List String → Bool
  | [] => false
  | y :: ys => x == y || memStr x ys

/-! ### Sorting, as Python `sorted` on strings -/

/-- Lexicographic (codepoint) comparison `a <= b`, the order used by
Python `sorted` on strings. -/
def listLe : List Char → List Char → Bool
  | [], _ => true
  | _ :: _, [] => false
  | a :: as, b :: bs =>
    if a.val.toNat < b.val.toNat then true
    else if b.val.toNat < a.val.toNat then false
    else listLe as bs

/-- Comparison `a <= b` on strings, lexicographic on codepoints. -/
def strLe (a b : String) : Bool := listLe a.data b.data

/-- Insert a string into a (sorted) list, keeping the order. -/
def insortStr (x : String) : List String → List String
  | [] => [x]
  | y :: ys => if strLe x y then x :: y :: ys else y :: insortStr x ys

/-- Insertion sort by `strLe`; models Python `sorted` on strings. -/
def sortStrings : List String → List String
  | [] => []
  | x :: xs => insortStr x (sortStrings xs)

/-- Deduplicate a list of strings (models building a Python `set`:
each distinct value survives exactly once; the retained positions are
irrelevant because the result is sorted afterwards). -/
def dedupStr : List String → List String
  | [] => []
  | x :: xs => if memStr x xs then dedupStr xs else x :: dedupStr xs

/-! ### Configuration constants from `main.py` -/

def BASE_DOMAIN : String := "https://www.mezzofy.com"

def KEYWORDS : List String :=
  ["sme", "smb", "pricing", "features", "merchant", "e-commerce", "ecommerce",
   "pos", "coupon", "loyalty", "reward", "subscription", "payment", "api", "docs"]

/-! ### The `Page` schema (`schemas.py`) -/

/-- Embedding of `schemas.Page`: the sole persisted entity.  `created_at` /
`updated_at` are assigned by the storage layer and stay `none` in the
crawler. -/
structure Page where
  url : String
  title : Option String := none
  description : Option String := none
  keywords_matched : List String := []
  snippet : Option String := none
  source : Option String := some "mezzofy"
  image : Option String := none
  created_at : Option Nat := none
  updated_at : Option Nat := none
deriving DecidableEq, Repr

/-! ### The parsed-document boundary (BeautifulSoup queries) -/

/-- The queries `extract_info` and the crawl loop perform on a
BeautifulSoup document, captured as plain data (the parse boundary of
the design document):

* `titleStr`: `soup.title.string`, `none` when there is no `<title>`
  element or its `.string` is `None`;
* `descContent`: the resulting `content` attribute of the first
  `meta[name=description]` tag (`none` when the tag or attribute is
  missing), and similarly `ogImageContent` for `meta[property=og:image]`;
* `firstPText`: `p.get_text()` for the first `<p>` element, `none`
  when no `<p>` exists;
* `allText`: `soup.get_text(" ")`, the whole visible text joined by
  spaces;
* `hrefs`: the `href` attribute of every `a[href]` element in
  document order. -/
structure PySoup where
  titleStr : Option String := none
  descContent : Option String := none
  ogImageContent : Option String := none
  firstPText : Option String := none
  allText : String := ""
  hrefs : List String := []
deriving DecidableEq, Repr

/-! ### `extract_info` (`main.py` lines 55-71) -/

/-- Embedding of `extract_info(url, soup)`.

```python
title = (soup.title.string.strip() if soup.title and soup.title.string else None)
...
snippet = None
p = soup.find("p")
if p and p.get_text():
    snippet = p.get_text().strip()[:240]
text = soup.get_text(" ").lower()
matched = sorted({kw for kw in KEYWORDS if kw in text})
return Page(url=url, title=title, description=description,
            keywords_matched=list(matched), snippet=snippet, image=image)
```

Python truthiness of `soup.title.string` and `p.get_text()` is the
`≠ ""` test (a BeautifulSoup tag itself is always truthy). -/
def extract_info (url : String) (soup : PySoup) : Page :=
  let title : Option String :=
    match soup.titleStr with
    | some s => if s = "" then none else some (pyStrip s)
    | none => none
  let description := soup.descContent
  let image := soup.ogImageContent
  let snippet : Option String :=
    match soup.firstPText with
    | some t => if t = "" then none else some (pyTake 240 (pyStrip t))
    | none => none
  let text := pyLower soup.allText
  let matched := sortStrings (dedupStr (KEYWORDS.filter (fun kw => strContains text kw)))
  { url := url, title := title, description := description,
    keywords_matched := matched, snippet := snippet, image := image }

/-! ### `urllib.parse.urlparse`, for the fragment used by the code -/

/-- The characters allowed in a URL scheme by `urllib.parse`
(letters, digits, `+`, `-`, `.`). -/
def scheme_char (c : Char) : Bool :=
  c.isAlpha || c.isDigit || c == '+' || c == '-' || c == '.'

/-- Split a character list at its first `':'`; `none` when there is no
colon (Python `url.find(':')`). -/
def splitAtColon : List Char → Option (List Char × List Char)
  | [] => none
  | c :: cs =>
    if c == ':' then some ([], cs)
    else
      match splitAtColon cs with
      | some (pre, post) => some (c :: pre, post)
      | none => none

/-- Scheme extraction of `urllib.parse.urlsplit`: when the text before
the first colon is nonempty, begins with a letter and consists of
scheme characters, it is the (lowercased) scheme and parsing continues
after the colon; otherwise the scheme is empty and the whole input
remains. -/
def splitScheme (cs : List Char) : List Char × List Char :=
  match splitAtColon cs with
  | some (pre, post) =>
    match pre with
    | [] => ([], cs)
    | c :: _ =>
      if c.isAlpha && pre.all scheme_char then (pre.map Char.toLower, post)
      else ([], cs)
  | none => ([], cs)

/-- Embedding of `urllib.parse.urlparse`, restricted to the `(scheme, netloc)`
components the code reads.  After the scheme, a netloc is present only
behind `"//"` and extends to the first `/`, `?` or `#`.  A netloc with
unbalanced square brackets raises `ValueError` (modelled as `none`);
the caller's `try/except` turns that into `False`. -/
def pyUrlparse (url : String) : Option (String × String) :=
  let (scheme, rest) := splitScheme url.data
  match rest with
  | '/' :: '/' :: r =>
    let netloc := r.takeWhile (fun c => !(c == '/' || c == '?' || c == '#'))
    if (netloc.contains '[' && !netloc.contains ']')
        || (netloc.contains ']' && !netloc.contains '[') then none
    else some (⟨scheme⟩, ⟨netloc⟩)
  | _ => some (⟨scheme⟩, "")

/-- Embedding of `is_valid_mezzofy_url` (`main.py` lines 37-42):

```python
try:
    parsed = urlparse(url)
    return parsed.netloc.endswith("mezzofy.com") and parsed.scheme in {"http", "https"}
except Exception:
    return False
```
-/
def is_valid_mezzofy_url (url : String) : Bool :=
  match pyUrlparse url with
  | none => false
  | some (scheme, netloc) =>
    strEndsWith netloc "mezzofy.com" && (scheme == "http" || scheme == "https")

/-! ### The crawl loop (`POST /crawl`, `main.py` lines 79-118) -/

/-- The external collaborators of the crawl loop:

* `requests_get url = some (status, text)` models a completed
  `requests.get(url, timeout=10)`; `none` models a timeout, connection
  error or any other transport exception;
* `parse text` models `BeautifulSoup(text, "lxml")` together with the
  five DOM queries the code performs on it;
* `urljoin base href` models `urllib.parse.urljoin`. -/
structure CrawlEnv where
  requests_get : String → Option (Nat × String)
  parse : String → PySoup
  urljoin : String → String → String

/-- Embedding of `fetch_page` (`main.py` lines 45-52):

```python
try:
    resp = requests.get(url, timeout=10)
    if resp.status_code != 200:
        return None
    return BeautifulSoup(resp.text, "lxml")
except Exception:
    return None
```
-/
def fetch_page (env : CrawlEnv) (url : String) : Option PySoup :=
  match env.requests_get url with
  | none => none
  | some (status_code, text) =>
    if status_code ≠ 200 then none else some (env.parse text)

/-- Embedding of `CrawlRequest` (`main.py` lines 32-34): `max_pages` is a Python
`int`, so it is embedded as `Int` (it may be negative). -/
structure CrawlRequest where
  start_url : Option String := none
  max_pages : Int := 20
deriving DecidableEq, Repr

/-- The outcome of one crawl invocation.  `visited` is the visited set
in insertion order (`len(visited)` is its length), `saved` the save
counter; `fetched`, `extracted` and `submitted` are ghost
instrumentation recording the URLs passed to `fetch_page`, the `Page`
records built by `extract_info`, and the `Page` records handed to
`create_document`. -/
structure CrawlResult where
  visited : List String
  saved : Nat
  fetched : List String
  extracted : List Page
  submitted : List Page
deriving DecidableEq, Repr

/-- The link-discovery loop at the bottom of the crawl body
(`main.py` lines 109-116): each `href` is stripped, fragment-only and
`mailto:` links are skipped, the rest are resolved against the current
URL and appended to the queue iff they pass the scope check and are in
neither the visited set nor the queue.

```python
for a in soup.find_all("a", href=True):
    href = a["href"].strip()
    if href.startswith("#") or href.startswith("mailto:"):
        continue
    absolute = urljoin(current, href)
    if is_valid_mezzofy_url(absolute) and absolute not in visited and absolute not in to_visit:
        to_visit.append(absolute)
```
-/
def addLinks (env : CrawlEnv) (current : String) (visited : List String) :
    List String → List String → List String
  | queue, [] => queue
  | queue, href :: rest =>
    let h := pyStrip href
    if pyStartsWith h "#" || pyStartsWith h "mailto:" then
      addLinks env current visited queue rest
    else
      let absolute := env.urljoin current h
      if is_valid_mezzofy_url absolute && !memStr absolute visited
          && !memStr absolute queue then
        addLinks env current visited (queue ++ [absolute]) rest
      else
        addLinks env current visited queue rest

/-- The `while` loop of `crawl` (`main.py` lines 89-116), with the
storage gateway modelled by `saveOk page = true` iff
`create_document("page", page)` returns without raising.

```python
while to_visit and len(visited) < req.max_pages:
    current = to_visit.pop(0)
    if current in visited:
        continue
    visited.add(current)
    soup = fetch_page(current)
    if not soup:
        continue
    page_model = extract_info(current, soup)
    if page_model.keywords_matched:
        try:
            create_document("page", page_model)
            saved += 1
        except Exception:
            pass
    for a in soup.find_all("a", href=True): ...
```
-/
def crawlLoop (env : CrawlEnv) (saveOk : Page → Bool) (maxPages : Int)
    (queue visited : List String) (saved : Nat)
    (fetched : List String) (extracted submitted : List Page) : CrawlResult :=
  match queue with
  | [] => ⟨visited, saved, fetched, extracted, submitted⟩
  | current :: rest =>
    if h : (visited.length : Int) < maxPages then
      if memStr current visited then
        crawlLoop env saveOk maxPages rest visited saved fetched extracted submitted
      else
        let visited' := visited ++ [current]
        let fetched' := fetched ++ [current]
        match fetch_page env current with
        | none =>
          crawlLoop env saveOk maxPages rest visited' saved fetched' extracted submitted
        | some soup =>
          let page := extract_info current soup
          let relevant := !page.keywords_matched.isEmpty
          let extracted' := extracted ++ [page]
          let submitted' := if relevant then submitted ++ [page] else submitted
          let saved' := if relevant && saveOk page then saved + 1 else saved
          let queue' := addLinks env current visited' rest soup.hrefs
          crawlLoop env saveOk maxPages queue' visited' saved' fetched' extracted' submitted'
    else ⟨visited, saved, fetched, extracted, submitted⟩
termination_by ((maxPages - visited.length).toNat, queue.length)
decreasing_by
  · apply Prod.Lex.right
    simp
  · apply Prod.Lex.left
    simp only [List.length_append, List.length_cons, List.length_nil]
    omega
  · apply Prod.Lex.left
    simp only [List.length_append, List.length_cons, List.length_nil]
    omega

/-- The defaulting of the start URL: `start_url = req.start_url or
BASE_DOMAIN` (Python `or` takes the right operand when the left is
`None` or the empty string). -/
def defaultedStart (req : CrawlRequest) : String :=
  match req.start_url with
  | none => BASE_DOMAIN
  | some s => if s = "" then BASE_DOMAIN else s

/-- Embedding of the `POST /crawl` handler (`main.py` lines 79-118).
`Except.error` models `HTTPException(status_code=400, ...)`.

```python
start_url = req.start_url or BASE_DOMAIN
if not is_valid_mezzofy_url(start_url):
    raise HTTPException(status_code=400, detail="start_url must be mezzofy.com")
to_visit = [start_url]
visited = set()
saved = 0
while ...: ...
return {"visited": len(visited), "saved": saved}
```
-/
def crawl (env : CrawlEnv) (saveOk : Page → Bool) (req : CrawlRequest) :
    Except String CrawlResult :=
  let start_url := defaultedStart req
  if is_valid_mezzofy_url start_url then
    .ok (crawlLoop env saveOk req.max_pages [start_url] [] 0 [] [] [])
  else
    .error "start_url must be mezzofy.com"

/-! ### Concrete environments used in witnesses and counterexamples -/

/-- The document with no content at all. -/
def emptySoup : PySoup := {}

/-- An environment in which every fetch raises (times out). -/
def envNone : CrawlEnv :=
  { requests_get := fun _ => none
    parse := fun _ => emptySoup
    urljoin := fun _ href => href }

/-- A storage gateway that always succeeds. -/
def saveOkAll : Page → Bool := fun _ => true

/-- A storage gateway that always raises. -/
def saveOkFail : Page → Bool := fun _ => false

/-! ### Helper lemmas: membership, deduplication, sorting -/

theorem memStr_iff (x : String) (l : List String) : memStr x l = true ↔ x ∈ l := by
  induction l with
  | nil => simp [memStr]
  | cons y ys ih => simp [memStr, ih, List.mem_cons]

theorem mem_dedupStr (a : String) (l : List String) : a ∈ dedupStr l ↔ a ∈ l := by
  induction l with
  | nil => simp [dedupStr]
  | cons x xs ih =>
    by_cases h : memStr x xs = true
    · have hx : x ∈ xs := (memStr_iff x xs).mp h
      simp only [dedupStr, h, if_pos, ih, List.mem_cons]
      constructor
      · exact fun hm => Or.inr hm
      · rintro (rfl | hm)
        · exact hx
        · exact hm
    · have h' : memStr x xs = false := by
        cases hx : memStr x xs with
        | true => exact absurd hx h
        | false => rfl
      simp [dedupStr, h', List.mem_cons, ih]

theorem nodup_dedupStr (l : List String) : (dedupStr l).Nodup := by
  induction l with
  | nil => simp [dedupStr]
  | cons x xs ih =>
    by_cases h : memStr x xs = true
    · simpa [dedupStr, h] using ih
    · have h' : memStr x xs = false := by
        cases hx : memStr x xs with
        | true => exact absurd hx h
        | false => rfl
      have hx : x ∉ xs := fun hm => h ((memStr_iff x xs).mpr hm)
      simp only [dedupStr, h', Bool.false_eq_true, if_neg, not_false_iff, List.nodup_cons]
      exact ⟨fun hm => hx ((mem_dedupStr x xs).mp hm), ih⟩

theorem listLe_total (a b : List Char) : listLe a b = true ∨ listLe b a = true := by
  induction a generalizing b with
  | nil => left; simp [listLe]
  | cons c cs ih =>
    cases b with
    | nil => right; simp [listLe]
    | cons d ds =>
      by_cases h1 : c.val.toNat < d.val.toNat
      · left; simp [listLe, h1]
      · by_cases h2 : d.val.toNat < c.val.toNat
        · right; simp [listLe, h2]
        · rcases ih ds with h | h
          · left; simp [listLe, h1, h2, h]
          · right; simp [listLe, h1, h2, h]

theorem listLe_trans {a b c : List Char} (hab : listLe a b = true)
    (hbc : listLe b c = true) : listLe a c = true := by
  induction a generalizing b c with
  | nil => simp [listLe]
  | cons x xs ih =>
    cases b with
    | nil => simp [listLe] at hab
    | cons y ys =>
      cases c with
      | nil => simp [listLe] at hbc
      | cons z zs =>
        simp only [listLe] at hab hbc ⊢
        by_cases hxy : x.val.toNat < y.val.toNat
        · by_cases hyz : y.val.toNat < z.val.toNat
          · have hxz : x.val.toNat < z.val.toNat := by omega
            simp [hxz]
          · by_cases hzy : z.val.toNat < y.val.toNat
            · simp [hyz, hzy] at hbc
            · have hxz : x.val.toNat < z.val.toNat := by omega
              simp [hxz]
        · by_cases hyx : y.val.toNat < x.val.toNat
          · simp [hxy, hyx] at hab
          · have hab' : listLe xs ys = true := by simpa [hxy, hyx] using hab
            by_cases hyz : y.val.toNat < z.val.toNat
            · have hxz : x.val.toNat < z.val.toNat := by omega
              simp [hxz]
            · by_cases hzy : z.val.toNat < y.val.toNat
              · simp [hyz, hzy] at hbc
              · have hbc' : listLe ys zs = true := by simpa [hyz, hzy] using hbc
                have hxz : ¬ x.val.toNat < z.val.toNat := by omega
                have hzx : ¬ z.val.toNat < x.val.toNat := by omega
                simp [hxz, hzx, ih hab' hbc']

theorem strLe_total (a b : String) : strLe a b = true ∨ strLe b a = true :=
  listLe_total a.data b.data

theorem strLe_trans {a b c : String} (hab : strLe a b = true)
    (hbc : strLe b c = true) : strLe a c = true :=
  listLe_trans hab hbc

theorem mem_insortStr (a x : String) (l : List String) :
    a ∈ insortStr x l ↔ a = x ∨ a ∈ l := by
  induction l with
  | nil => simp [insortStr]
  | cons y ys ih =>
    by_cases h : strLe x y
    · simp [insortStr, h, List.mem_cons]
    · simp only [insortStr, h, Bool.false_eq_true, if_neg, not_false_iff, List.mem_cons, ih]
      tauto

theorem pairwise_insortStr (x : String) (l : List String)
    (hl : l.Pairwise (fun a b => strLe a b = true)) :
    (insortStr x l).Pairwise (fun a b => strLe a b = true) := by
  induction l with
  | nil => simp [insortStr]
  | cons y ys ih =>
    rcases List.pairwise_cons.mp hl with ⟨hy, hys⟩
    by_cases h : strLe x y = true
    · simp only [insortStr, h, if_pos]
      refine List.pairwise_cons.mpr ⟨?_, hl⟩
      intro b hb
      rcases List.mem_cons.mp hb with rfl | hb
      · exact h
      · exact strLe_trans h (hy b hb)
    · have hyx : strLe y x = true := by
        rcases strLe_total x y with hxy | hyx
        · exact absurd hxy h
        · exact hyx
      have h' : strLe x y = false := by
        cases hc : strLe x y with
        | true => exact absurd hc h
        | false => rfl
      simp only [insortStr, h', Bool.false_eq_true, if_neg, not_false_iff]
      refine List.pairwise_cons.mpr ⟨?_, ih hys⟩
      intro b hb
      rcases (mem_insortStr b x ys).mp hb with rfl | hb
      · exact hyx
      · exact hy b hb

theorem nodup_insortStr (x : String) (l : List String) (hx : x ∉ l)
    (hl : l.Nodup) : (insortStr x l).Nodup := by
  induction l with
  | nil => simp [insortStr]
  | cons y ys ih =>
    rcases List.nodup_cons.mp hl with ⟨hy, hys⟩
    have hxy : x ≠ y := fun h => hx (h ▸ List.mem_cons_self y ys)
    have hxs : x ∉ ys := fun h => hx (List.mem_cons_of_mem y h)
    by_cases h : strLe x y = true
    · simp only [insortStr, h, if_pos, List.nodup_cons]
      exact ⟨hx, hy, hys⟩
    · have h' : strLe x y = false := by
        cases hc : strLe x y with
        | true => exact absurd hc h
        | false => rfl
      simp only [insortStr, h', Bool.false_eq_true, if_neg, not_false_iff, List.nodup_cons]
      refine ⟨?_, ih hxs hys⟩
      intro hm
      rcases (mem_insortStr y x ys).mp hm with h'' | h''
      · exact hxy h''.symm
      · exact hy h''

theorem mem_sortStrings (a : String) (l : List String) :
    a ∈ sortStrings l ↔ a ∈ l := by
  induction l with
  | nil => simp [sortStrings]
  | cons x xs ih => simp [sortStrings, mem_insortStr, ih, List.mem_cons]

theorem pairwise_sortStrings (l : List String) :
    (sortStrings l).Pairwise (fun a b => strLe a b = true) := by
  induction l with
  | nil => simp [sortStrings]
  | cons x xs ih => exact pairwise_insortStr x _ ih

theorem nodup_sortStrings (l : List String) (hl : l.Nodup) :
    (sortStrings l).Nodup := by
  induction l with
  | nil => simp [sortStrings]
  | cons x xs ih =>
    rcases List.nodup_cons.mp hl with ⟨hx, hxs⟩
    exact nodup_insortStr x _ (fun h => hx ((mem_sortStrings x xs).mp h)) (ih hxs)

/-- The `keywords_matched` field of `extract_info`, characterised. -/
theorem extract_info_keywords (url : String) (soup : PySoup) (kw : String) :
    kw ∈ (extract_info url soup).keywords_matched ↔
      kw ∈ KEYWORDS ∧ strContains (pyLower soup.allText) kw = true := by
  show kw ∈ sortStrings (dedupStr (KEYWORDS.filter
      (fun kw => strContains (pyLower soup.allText) kw))) ↔ _
  rw [mem_sortStrings, mem_dedupStr, List.mem_filter]

/-! ### Step equations for `crawlLoop` -/

theorem crawlLoop_nil (env : CrawlEnv) (saveOk : Page → Bool) (mp : Int)
    (v : List String) (sv : Nat) (f : List String) (ex sb : List Page) :
    crawlLoop env saveOk mp [] v sv f ex sb = ⟨v, sv, f, ex, sb⟩ := by
  simp [crawlLoop]

theorem crawlLoop_stop (env : CrawlEnv) (saveOk : Page → Bool) (mp : Int)
    (c : String) (rest v : List String) (sv : Nat) (f : List String) (ex sb : List Page)
    (h : ¬ ((v.length : Int) < mp)) :
    crawlLoop env saveOk mp (c :: rest) v sv f ex sb = ⟨v, sv, f, ex, sb⟩ := by
  simp [crawlLoop, h]

theorem crawlLoop_skip (env : CrawlEnv) (saveOk : Page → Bool) (mp : Int)
    (c : String) (rest v : List String) (sv : Nat) (f : List String) (ex sb : List Page)
    (h : (v.length : Int) < mp) (hm : memStr c v = true) :
    crawlLoop env saveOk mp (c :: rest) v sv f ex sb =
      crawlLoop env saveOk mp rest v sv f ex sb := by
  simp [crawlLoop, h, hm]

theorem crawlLoop_fetchfail (env : CrawlEnv) (saveOk : Page → Bool) (mp : Int)
    (c : String) (rest v : List String) (sv : Nat) (f : List String) (ex sb : List Page)
    (h : (v.length : Int) < mp) (hm : memStr c v = false)
    (hf : fetch_page env c = none) :
    crawlLoop env saveOk mp (c :: rest) v sv f ex sb =
      crawlLoop env saveOk mp rest (v ++ [c]) sv (f ++ [c]) ex sb := by
  simp [crawlLoop, h, hm, hf]

theorem crawlLoop_fetchok (env : CrawlEnv) (saveOk : Page → Bool) (mp : Int)
    (c : String) (rest v : List String) (sv : Nat) (f : List String) (ex sb : List Page)
    (soup : PySoup) (h : (v.length : Int) < mp) (hm : memStr c v = false)
    (hf : fetch_page env c = some soup) :
    crawlLoop env saveOk mp (c :: rest) v sv f ex sb =
      crawlLoop env saveOk mp
        (addLinks env c (v ++ [c]) rest soup.hrefs) (v ++ [c])
        (if !(extract_info c soup).keywords_matched.isEmpty
            && saveOk (extract_info c soup) then sv + 1 else sv)
        (f ++ [c]) (ex ++ [extract_info c soup])
        (if !(extract_info c soup).keywords_matched.isEmpty
            then sb ++ [extract_info c soup] else sb) := by
  simp [crawlLoop, h, hm, hf]

theorem bool_not_true {b : Bool} (h : ¬ b = true) : b = false := by
  cases b
  · rfl
  · exact absurd rfl h

theorem nodup_append_singleton {α : Type} (l : List α) (a : α) (h : l.Nodup)
    (ha : a ∉ l) : (l ++ [a]).Nodup := by
  rw [List.nodup_append]
  refine ⟨h, List.nodup_singleton a, ?_⟩
  intro x hx hxa
  rw [List.mem_singleton] at hxa
  exact ha (hxa ▸ hx)

/-- Budget invariant: the visited list never grows past `maxPages`
once it is within the budget. -/
theorem crawlLoop_budget (env : CrawlEnv) (sOk : Page → Bool) (mp : Int) :
    ∀ q v sv f ex sb, ((v.length : Int) ≤ mp) →
      (((crawlLoop env sOk mp q v sv f ex sb).visited.length : Int) ≤ mp) := by
  intro q v sv f ex sb
  induction q, v, sv, f, ex, sb using crawlLoop.induct env sOk mp with
  | case1 v sv f ex sb =>
    intro h
    rw [crawlLoop_nil]
    exact h
  | case2 v sv f ex sb c rest hlt hmem ih =>
    intro h
    rw [crawlLoop_skip env sOk mp c rest v sv f ex sb hlt hmem]
    exact ih h
  | case3 v sv f ex sb c rest hlt hmem v' f' hf ih =>
    intro _
    rw [crawlLoop_fetchfail env sOk mp c rest v sv f ex sb hlt (bool_not_true hmem) hf]
    apply ih
    show (((v ++ [c]).length : Int) ≤ mp)
    simp only [List.length_append, List.length_cons, List.length_nil]
    omega
  | case4 v sv f ex sb c rest hlt hmem v' f' soup hf page relevant ex' sb' sv' q' ih =>
    intro _
    rw [crawlLoop_fetchok env sOk mp c rest v sv f ex sb soup hlt (bool_not_true hmem) hf]
    apply ih
    show (((v ++ [c]).length : Int) ≤ mp)
    simp only [List.length_append, List.length_cons, List.length_nil]
    omega
  | case5 v sv f ex sb c rest hge =>
    intro h
    rw [crawlLoop_stop env sOk mp c rest v sv f ex sb hge]
    exact h

/-- Ghost invariant: the pages handed to the storage gateway are
exactly the extracted pages with non-empty `keywords_matched`, and the
save counter counts exactly the submitted pages accepted by the
gateway. -/
theorem crawlLoop_ghost (env : CrawlEnv) (sOk : Page → Bool) (mp : Int) :
    ∀ q v sv f ex sb,
      sb = ex.filter (fun p => !p.keywords_matched.isEmpty) →
      sv = (sb.filter sOk).length →
      (crawlLoop env sOk mp q v sv f ex sb).submitted =
          (crawlLoop env sOk mp q v sv f ex sb).extracted.filter
            (fun p => !p.keywords_matched.isEmpty) ∧
        (crawlLoop env sOk mp q v sv f ex sb).saved =
          ((crawlLoop env sOk mp q v sv f ex sb).submitted.filter sOk).length := by
  intro q v sv f ex sb
  induction q, v, sv, f, ex, sb using crawlLoop.induct env sOk mp with
  | case1 v sv f ex sb =>
    intro hsb hsv
    rw [crawlLoop_nil]
    exact ⟨hsb, hsv⟩
  | case2 v sv f ex sb c rest hlt hmem ih =>
    intro hsb hsv
    rw [crawlLoop_skip env sOk mp c rest v sv f ex sb hlt hmem]
    exact ih hsb hsv
  | case3 v sv f ex sb c rest hlt hmem v' f' hf ih =>
    intro hsb hsv
    rw [crawlLoop_fetchfail env sOk mp c rest v sv f ex sb hlt (bool_not_true hmem) hf]
    exact ih hsb hsv
  | case4 v sv f ex sb c rest hlt hmem v' f' soup hf page relevant ex' sb' sv' q' ih =>
    intro hsb hsv
    rw [crawlLoop_fetchok env sOk mp c rest v sv f ex sb soup hlt (bool_not_true hmem) hf]
    apply ih
    · show (if !(extract_info c soup).keywords_matched.isEmpty
            then sb ++ [extract_info c soup] else sb) =
          (ex ++ [extract_info c soup]).filter (fun p => !p.keywords_matched.isEmpty)
      rw [List.filter_append, ← hsb]
      by_cases hrel : (extract_info c soup).keywords_matched = []
      · simp [hrel]
      · simp [hrel]
    · show (if !(extract_info c soup).keywords_matched.isEmpty
            && sOk (extract_info c soup) then sv + 1 else sv) =
          (((if !(extract_info c soup).keywords_matched.isEmpty
            then sb ++ [extract_info c soup] else sb)).filter sOk).length
      by_cases hrel : (extract_info c soup).keywords_matched = []
      · simp [hrel, hsv]
      · by_cases hok : sOk (extract_info c soup) = true
        · simp [hrel, hok, List.filter_append, hsv]
        · simp [hrel, hok, List.filter_append, hsv]
  | case5 v sv f ex sb c rest hge =>
    intro hsb hsv
    rw [crawlLoop_stop env sOk mp c rest v sv f ex sb hge]
    exact ⟨hsb, hsv⟩

/-- Counting invariant: the loop adds at least as many visited URLs
as extracted pages. -/
theorem crawlLoop_counts (env : CrawlEnv) (sOk : Page → Bool) (mp : Int) :
    ∀ q v sv f ex sb,
      (crawlLoop env sOk mp q v sv f ex sb).extracted.length + v.length ≤
        (crawlLoop env sOk mp q v sv f ex sb).visited.length + ex.length := by
  intro q v sv f ex sb
  induction q, v, sv, f, ex, sb using crawlLoop.induct env sOk mp with
  | case1 v sv f ex sb =>
    rw [crawlLoop_nil]
    show ex.length + v.length ≤ v.length + ex.length
    omega
  | case2 v sv f ex sb c rest hlt hmem ih =>
    rw [crawlLoop_skip env sOk mp c rest v sv f ex sb hlt hmem]
    exact ih
  | case3 v sv f ex sb c rest hlt hmem v' f' hf ih =>
    rw [crawlLoop_fetchfail env sOk mp c rest v sv f ex sb hlt (bool_not_true hmem) hf]
    have h2 := ih
    simp only [v', f', List.length_append, List.length_cons, List.length_nil] at h2 ⊢
    omega
  | case4 v sv f ex sb c rest hlt hmem v' f' soup hf page relevant ex' sb' sv' q' ih =>
    rw [crawlLoop_fetchok env sOk mp c rest v sv f ex sb soup hlt (bool_not_true hmem) hf]
    have h2 := ih
    simp only [q', v', sv', f', ex', sb', page, relevant, dite_eq_ite, List.length_append,
      List.length_cons, List.length_nil] at h2 ⊢
    omega
  | case5 v sv f ex sb c rest hge =>
    rw [crawlLoop_stop env sOk mp c rest v sv f ex sb hge]
    show ex.length + v.length ≤ v.length + ex.length
    omega

/-- The traversal (visited set, fetch attempts, extracted and
submitted pages) does not depend on the storage gateway: a failing
`create_document` is swallowed and only affects the save counter. -/
theorem crawlLoop_saveOk_indep (env : CrawlEnv) (sOk₁ sOk₂ : Page → Bool) (mp : Int) :
    ∀ q v sv₁ f ex sb, ∀ sv₂ : Nat,
      (crawlLoop env sOk₁ mp q v sv₁ f ex sb).visited =
          (crawlLoop env sOk₂ mp q v sv₂ f ex sb).visited ∧
        (crawlLoop env sOk₁ mp q v sv₁ f ex sb).fetched =
          (crawlLoop env sOk₂ mp q v sv₂ f ex sb).fetched ∧
        (crawlLoop env sOk₁ mp q v sv₁ f ex sb).extracted =
          (crawlLoop env sOk₂ mp q v sv₂ f ex sb).extracted ∧
        (crawlLoop env sOk₁ mp q v sv₁ f ex sb).submitted =
          (crawlLoop env sOk₂ mp q v sv₂ f ex sb).submitted := by
  intro q v sv₁ f ex sb
  induction q, v, sv₁, f, ex, sb using crawlLoop.induct env sOk₁ mp with
  | case1 v sv f ex sb =>
    intro sv₂
    rw [crawlLoop_nil, crawlLoop_nil]
    exact ⟨rfl, rfl, rfl, rfl⟩
  | case2 v sv f ex sb c rest hlt hmem ih =>
    intro sv₂
    rw [crawlLoop_skip env sOk₁ mp c rest v sv f ex sb hlt hmem,
      crawlLoop_skip env sOk₂ mp c rest v sv₂ f ex sb hlt hmem]
    exact ih sv₂
  | case3 v sv f ex sb c rest hlt hmem v' f' hf ih =>
    intro sv₂
    rw [crawlLoop_fetchfail env sOk₁ mp c rest v sv f ex sb hlt (bool_not_true hmem) hf,
      crawlLoop_fetchfail env sOk₂ mp c rest v sv₂ f ex sb hlt (bool_not_true hmem) hf]
    exact ih sv₂
  | case4 v sv f ex sb c rest hlt hmem v' f' soup hf page relevant ex' sb' sv' q' ih =>
    intro sv₂
    rw [crawlLoop_fetchok env sOk₁ mp c rest v sv f ex sb soup hlt (bool_not_true hmem) hf,
      crawlLoop_fetchok env sOk₂ mp c rest v sv₂ f ex sb soup hlt (bool_not_true hmem) hf]
    exact ih _
  | case5 v sv f ex sb c rest hge =>
    intro sv₂
    rw [crawlLoop_stop env sOk₁ mp c rest v sv f ex sb hge,
      crawlLoop_stop env sOk₂ mp c rest v sv₂ f ex sb hge]
    exact ⟨rfl, rfl, rfl, rfl⟩

/-- The fetch-attempt log and the visited list stay duplicate-free:
each URL is fetched at most once. -/
theorem crawlLoop_nodup (env : CrawlEnv) (sOk : Page → Bool) (mp : Int) :
    ∀ q v sv f ex sb,
      (∀ u, u ∈ f → u ∈ v) → f.Nodup → v.Nodup →
      (crawlLoop env sOk mp q v sv f ex sb).fetched.Nodup ∧
        (crawlLoop env sOk mp q v sv f ex sb).visited.Nodup := by
  intro q v sv f ex sb
  induction q, v, sv, f, ex, sb using crawlLoop.induct env sOk mp with
  | case1 v sv f ex sb =>
    intro _ hf hv
    rw [crawlLoop_nil]
    exact ⟨hf, hv⟩
  | case2 v sv f ex sb c rest hlt hmem ih =>
    intro hfv hf hv
    rw [crawlLoop_skip env sOk mp c rest v sv f ex sb hlt hmem]
    exact ih hfv hf hv
  | case3 v sv f ex sb c rest hlt hmem v' f' hfe ih =>
    intro hfv hf hv
    rw [crawlLoop_fetchfail env sOk mp c rest v sv f ex sb hlt (bool_not_true hmem) hfe]
    have hcv : c ∉ v := fun h => hmem ((memStr_iff c v).mpr h)
    have hcf : c ∉ f := fun h => hcv (hfv c h)
    apply ih
    · intro u hu
      rcases List.mem_append.mp hu with hu | hu
      · exact List.mem_append.mpr (Or.inl (hfv u hu))
      · exact List.mem_append.mpr (Or.inr hu)
    · exact nodup_append_singleton f c hf hcf
    · exact nodup_append_singleton v c hv hcv
  | case4 v sv f ex sb c rest hlt hmem v' f' soup hfe page relevant ex' sb' sv' q' ih =>
    intro hfv hf hv
    rw [crawlLoop_fetchok env sOk mp c rest v sv f ex sb soup hlt (bool_not_true hmem) hfe]
    have hcv : c ∉ v := fun h => hmem ((memStr_iff c v).mpr h)
    have hcf : c ∉ f := fun h => hcv (hfv c h)
    apply ih
    · intro u hu
      rcases List.mem_append.mp hu with hu | hu
      · exact List.mem_append.mpr (Or.inl (hfv u hu))
      · exact List.mem_append.mpr (Or.inr hu)
    · exact nodup_append_singleton f c hf hcf
    · exact nodup_append_singleton v c hv hcv
  | case5 v sv f ex sb c rest hge =>
    intro _ hf hv
    rw [crawlLoop_stop env sOk mp c rest v sv f ex sb hge]
    exact ⟨hf, hv⟩

/-- Every URL the link-discovery loop adds to the queue passes the
scope check and is not in the visited set. -/
theorem addLinks_mem (env : CrawlEnv) (c : String) (vis : List String) :
    ∀ hrefs queue u, u ∈ addLinks env c vis queue hrefs →
      u ∈ queue ∨ (is_valid_mezzofy_url u = true ∧ memStr u vis = false) := by
  intro hrefs
  induction hrefs with
  | nil =>
    intro queue u h
    exact Or.inl h
  | cons href rest ih =>
    intro queue u h
    simp only [addLinks] at h
    by_cases hs : (pyStartsWith (pyStrip href) "#"
        || pyStartsWith (pyStrip href) "mailto:") = true
    · rw [if_pos hs] at h
      exact ih queue u h
    · rw [if_neg hs] at h
      by_cases hg : (is_valid_mezzofy_url (env.urljoin c (pyStrip href))
          && !memStr (env.urljoin c (pyStrip href)) vis
          && !memStr (env.urljoin c (pyStrip href)) queue) = true
      · rw [if_pos hg] at h
        simp only [Bool.and_eq_true, Bool.not_eq_true'] at hg
        rcases ih _ u h with hq | hvv
        · rcases List.mem_append.mp hq with hq | hq
          · exact Or.inl hq
          · rw [List.mem_singleton] at hq
            subst hq
            exact Or.inr ⟨hg.1.1, hg.1.2⟩
        · exact Or.inr hvv
      · rw [if_neg hg] at h
        exact ih queue u h

/-- The link-discovery loop never introduces a duplicate queue
entry. -/
theorem addLinks_nodup (env : CrawlEnv) (c : String) (vis : List String) :
    ∀ hrefs queue, queue.Nodup → (addLinks env c vis queue hrefs).Nodup := by
  intro hrefs
  induction hrefs with
  | nil =>
    intro queue h
    exact h
  | cons href rest ih =>
    intro queue h
    simp only [addLinks]
    by_cases hs : (pyStartsWith (pyStrip href) "#"
        || pyStartsWith (pyStrip href) "mailto:") = true
    · rw [if_pos hs]
      exact ih queue h
    · rw [if_neg hs]
      by_cases hg : (is_valid_mezzofy_url (env.urljoin c (pyStrip href))
          && !memStr (env.urljoin c (pyStrip href)) vis
          && !memStr (env.urljoin c (pyStrip href)) queue) = true
      · rw [if_pos hg]
        apply ih
        apply nodup_append_singleton _ _ h
        simp only [Bool.and_eq_true, Bool.not_eq_true'] at hg
        intro hmem
        have hq := hg.2
        rw [(memStr_iff _ queue).mpr hmem] at hq
        exact Bool.noConfusion hq
      · rw [if_neg hg]
        exact ih queue h

/-- The link-discovery loop only appends: everything queued stays
queued. -/
theorem addLinks_queue_sub (env : CrawlEnv) (c : String) (vis : List String) :
    ∀ hrefs queue u, u ∈ queue → u ∈ addLinks env c vis queue hrefs := by
  intro hrefs
  induction hrefs with
  | nil =>
    intro queue u hu
    exact hu
  | cons href rest ih =>
    intro queue u hu
    simp only [addLinks]
    by_cases hs : (pyStartsWith (pyStrip href) "#"
        || pyStartsWith (pyStrip href) "mailto:") = true
    · rw [if_pos hs]
      exact ih queue u hu
    · rw [if_neg hs]
      by_cases hg : (is_valid_mezzofy_url (env.urljoin c (pyStrip href))
          && !memStr (env.urljoin c (pyStrip href)) vis
          && !memStr (env.urljoin c (pyStrip href)) queue) = true
      · rw [if_pos hg]
        exact ih _ u (List.mem_append.mpr (Or.inl hu))
      · rw [if_neg hg]
        exact ih queue u hu

/-- Sufficiency of the enqueue condition: every discovered href that
is not skipped (fragment-only or `mailto:`) and whose resolved
absolute URL passes the scope check and is unvisited ends up in the
queue returned by the link-discovery loop (either it was enqueued at
its check, or it was already queued and the queue only grows). -/
theorem addLinks_enqueues (env : CrawlEnv) (c : String) (vis : List String) :
    ∀ hrefs queue href, href ∈ hrefs →
      pyStartsWith (pyStrip href) "#" = false →
      pyStartsWith (pyStrip href) "mailto:" = false →
      is_valid_mezzofy_url (env.urljoin c (pyStrip href)) = true →
      memStr (env.urljoin c (pyStrip href)) vis = false →
      env.urljoin c (pyStrip href) ∈ addLinks env c vis queue hrefs := by
  intro hrefs
  induction hrefs with
  | nil =>
    intro queue href hm
    exact absurd hm (List.not_mem_nil href)
  | cons h0 rest ih =>
    intro queue href hm h1 h2 h3 h4
    rcases List.mem_cons.mp hm with rfl | hm
    · simp only [addLinks]
      rw [if_neg (by rw [h1, h2]; decide)]
      by_cases hq : memStr (env.urljoin c (pyStrip href)) queue = true
      · rw [if_neg (by rw [hq]; simp)]
        exact addLinks_queue_sub env c vis rest queue _ ((memStr_iff _ _).mp hq)
      · rw [if_pos (by rw [h3, h4, bool_not_true hq]; decide)]
        exact addLinks_queue_sub env c vis rest _ _
          (List.mem_append.mpr (Or.inr (List.mem_singleton.mpr rfl)))
    · simp only [addLinks]
      by_cases hs : (pyStartsWith (pyStrip h0) "#"
          || pyStartsWith (pyStrip h0) "mailto:") = true
      · rw [if_pos hs]
        exact ih queue href hm h1 h2 h3 h4
      · rw [if_neg hs]
        by_cases hg : (is_valid_mezzofy_url (env.urljoin c (pyStrip h0))
            && !memStr (env.urljoin c (pyStrip h0)) vis
            && !memStr (env.urljoin c (pyStrip h0)) queue) = true
        · rw [if_pos hg]
          exact ih _ href hm h1 h2 h3 h4
        · rw [if_neg hg]
          exact ih queue href hm h1 h2 h3 h4

/-- The `snippet` field of `extract_info`, unfolded. -/
theorem extract_info_snippet (url : String) (soup : PySoup) :
    (extract_info url soup).snippet =
      match soup.firstPText with
      | some t => if t = "" then none else some (pyTake 240 (pyStrip t))
      | none => none := rfl

/-- The `title` field of `extract_info`, unfolded. -/
theorem extract_info_title (url : String) (soup : PySoup) :
    (extract_info url soup).title =
      match soup.titleStr with
      | some s => if s = "" then none else some (pyStrip s)
      | none => none := rfl

/-- Shared evaluation: crawling the defaulted start URL in an
environment where every fetch times out visits exactly the seed. -/
theorem crawl_envNone_default :
    crawl envNone saveOkAll { start_url := none, max_pages := 20 } =
      .ok { visited := [BASE_DOMAIN], saved := 0, fetched := [BASE_DOMAIN],
            extracted := [], submitted := [] } := by
  have hv : is_valid_mezzofy_url (defaultedStart { start_url := none, max_pages := 20 }) = true := by
    decide
  simp only [crawl, hv, if_true]
  rw [show defaultedStart { start_url := none, max_pages := 20 } = BASE_DOMAIN from rfl]
  rw [crawlLoop_fetchfail envNone saveOkAll 20 BASE_DOMAIN [] [] 0 [] [] []
    (by decide) rfl rfl, crawlLoop_nil]
  rfl

/-! ## Claim theorems -/

/-- C1 (counterexample): the claim asserts that a host that merely
ends in the characters `mezzofy.com` without a dot boundary, such as
`notmezzofy.com`, is not in scope; the code's validator accepts it,
because `parsed.netloc.endswith("mezzofy.com")` is a plain suffix
check with no dot-boundary requirement. -/
theorem C1_counterexample : is_valid_mezzofy_url "https://notmezzofy.com" = true := by
  decide

/-- C1 (amended): `is_valid_mezzofy_url U` returns true iff U parses
with scheme http or https and its host (netloc) ends with the
character string `mezzofy.com` — a plain suffix check, with no dot
boundary required.  Consequently `https://sub.mezzofy.com` is in
scope, `https://evil.com/mezzofy.com` and
`https://mezzofy.com.evil.com` are not, but `https://notmezzofy.com`
is also in scope. -/
theorem C1_url_validator :
    (∀ url, is_valid_mezzofy_url url = true ↔
      ∃ scheme netloc, pyUrlparse url = some (scheme, netloc) ∧
        (scheme = "http" ∨ scheme = "https") ∧
        strEndsWith netloc "mezzofy.com" = true) ∧
    is_valid_mezzofy_url "https://sub.mezzofy.com" = true ∧
    is_valid_mezzofy_url "https://evil.com/mezzofy.com" = false ∧
    is_valid_mezzofy_url "https://mezzofy.com.evil.com" = false ∧
    is_valid_mezzofy_url "https://notmezzofy.com" = true := by
  refine ⟨?_, by decide, by decide, by decide, by decide⟩
  intro url
  constructor
  · intro h
    unfold is_valid_mezzofy_url at h
    cases hp : pyUrlparse url with
    | none => rw [hp] at h; exact absurd h (by decide)
    | some pr =>
      obtain ⟨scheme, netloc⟩ := pr
      rw [hp] at h
      simp only [Bool.and_eq_true, Bool.or_eq_true, beq_iff_eq] at h
      exact ⟨scheme, netloc, rfl, h.2, h.1⟩
  · rintro ⟨scheme, netloc, hp, hsch, hend⟩
    unfold is_valid_mezzofy_url
    rw [hp]
    simp only [Bool.and_eq_true, Bool.or_eq_true, beq_iff_eq]
    exact ⟨hend, hsch⟩

/-- C2 (counterexample): with `start_url = https://notmezzofy.com` the
crawl call does not fail with an invalid-input error: the validator
accepts the URL, the crawl runs, and the start URL is passed to
`fetch_page` (recorded in the `fetched` ghost log; here the fetch
times out, so the crawl returns one visited page and nothing saved). -/
theorem C2_counterexample :
    crawl envNone saveOkAll { start_url := some "https://notmezzofy.com", max_pages := 20 } =
      .ok { visited := ["https://notmezzofy.com"], saved := 0,
            fetched := ["https://notmezzofy.com"], extracted := [], submitted := [] } := by
  have hv : is_valid_mezzofy_url
      (defaultedStart { start_url := some "https://notmezzofy.com", max_pages := 20 }) = true := by
    decide
  simp only [crawl, hv, if_true]
  rw [show defaultedStart { start_url := some "https://notmezzofy.com", max_pages := 20 } =
    "https://notmezzofy.com" from rfl]
  rw [crawlLoop_fetchfail envNone saveOkAll 20 "https://notmezzofy.com" [] [] 0 [] [] []
    (by decide) rfl rfl, crawlLoop_nil]
  rfl

/-- C2 (amended): `crawl` fails fast with the invalid-input error (and
performs no fetch) iff `is_valid_mezzofy_url` rejects the start URL
after defaulting; when the validator accepts it, the crawl loop runs.
Because the validator uses a plain suffix check,
`https://notmezzofy.com` is accepted and does not fail. -/
theorem C2_fail_fast (env : CrawlEnv) (saveOk : Page → Bool) (req : CrawlRequest) :
    (crawl env saveOk req = .error "start_url must be mezzofy.com" ↔
      is_valid_mezzofy_url (defaultedStart req) = false) ∧
    (is_valid_mezzofy_url (defaultedStart req) = true →
      crawl env saveOk req =
        .ok (crawlLoop env saveOk req.max_pages [defaultedStart req] [] 0 [] [] [])) := by
  constructor
  · by_cases hv : is_valid_mezzofy_url (defaultedStart req) = true
    · simp [crawl, hv]
    · simp [crawl, bool_not_true hv]
  · intro hv
    simp [crawl, hv]

/-- Witness for C2 (amended): `https://example.com` is rejected before
any fetch, while an accepted start URL reaches the crawl loop. -/
theorem C2_fail_fast_witness :
    crawl envNone saveOkAll { start_url := some "https://example.com", max_pages := 5 } =
      .error "start_url must be mezzofy.com" ∧
    crawl envNone saveOkAll { start_url := none, max_pages := 0 } =
      .ok (crawlLoop envNone saveOkAll 0
        [defaultedStart { start_url := none, max_pages := 0 }] [] 0 [] [] []) :=
  ⟨(C2_fail_fast envNone saveOkAll _).1.mpr (by decide),
   (C2_fail_fast envNone saveOkAll _).2 (by decide)⟩

/-- C3: for any crawl invocation, the pages handed to the storage
gateway are exactly the extracted (fetched) pages with non-empty
`keywords_matched`; `saved` counts exactly the submitted pages the
gateway accepted; traversal (visited set, fetch log, extracted and
submitted pages) is unchanged if the gateway fails differently — a
persistence failure never aborts the crawl; and at crawl end
`saved <= visited_count`. -/
theorem C3_persistence (env : CrawlEnv) (saveOk : Page → Bool) (mp : Int) (start : String) :
    (crawlLoop env saveOk mp [start] [] 0 [] [] []).submitted =
        (crawlLoop env saveOk mp [start] [] 0 [] [] []).extracted.filter
          (fun p => !p.keywords_matched.isEmpty) ∧
    (crawlLoop env saveOk mp [start] [] 0 [] [] []).saved =
        ((crawlLoop env saveOk mp [start] [] 0 [] [] []).submitted.filter saveOk).length ∧
    (∀ saveOk₂ : Page → Bool,
      (crawlLoop env saveOk₂ mp [start] [] 0 [] [] []).visited =
          (crawlLoop env saveOk mp [start] [] 0 [] [] []).visited ∧
        (crawlLoop env saveOk₂ mp [start] [] 0 [] [] []).fetched =
          (crawlLoop env saveOk mp [start] [] 0 [] [] []).fetched ∧
        (crawlLoop env saveOk₂ mp [start] [] 0 [] [] []).extracted =
          (crawlLoop env saveOk mp [start] [] 0 [] [] []).extracted ∧
        (crawlLoop env saveOk₂ mp [start] [] 0 [] [] []).submitted =
          (crawlLoop env saveOk mp [start] [] 0 [] [] []).submitted) ∧
    (crawlLoop env saveOk mp [start] [] 0 [] [] []).saved ≤
        (crawlLoop env saveOk mp [start] [] 0 [] [] []).visited.length := by
  obtain ⟨hsub, hsaved⟩ := crawlLoop_ghost env saveOk mp [start] [] 0 [] [] [] rfl rfl
  refine ⟨hsub, hsaved, ?_, ?_⟩
  · intro saveOk₂
    exact crawlLoop_saveOk_indep env saveOk₂ saveOk mp [start] [] 0 [] [] [] 0
  · have hcnt := crawlLoop_counts env saveOk mp [start] [] 0 [] [] []
    simp only [List.length_nil, Nat.add_zero] at hcnt
    calc (crawlLoop env saveOk mp [start] [] 0 [] [] []).saved
        = ((crawlLoop env saveOk mp [start] [] 0 [] [] []).submitted.filter saveOk).length :=
          hsaved
      _ ≤ (crawlLoop env saveOk mp [start] [] 0 [] [] []).submitted.length :=
          List.length_filter_le _ _
      _ = ((crawlLoop env saveOk mp [start] [] 0 [] [] []).extracted.filter
            (fun p => !p.keywords_matched.isEmpty)).length := by rw [hsub]
      _ ≤ (crawlLoop env saveOk mp [start] [] 0 [] [] []).extracted.length :=
          List.length_filter_le _ _
      _ ≤ (crawlLoop env saveOk mp [start] [] 0 [] [] []).visited.length := hcnt

/-- C4 (counterexample): with `max_pages = -1` (a legal Python `int`),
the crawl visits nothing and returns `visited_count = 0`, yet
`0 <= -1` is false — the claimed bound `visited_count <= max_pages`
fails for negative budgets. -/
theorem C4_counterexample :
    crawl envNone saveOkAll { start_url := none, max_pages := -1 } =
      .ok { visited := [], saved := 0, fetched := [], extracted := [], submitted := [] } ∧
    ¬ ((({ visited := [], saved := 0, fetched := [], extracted := [],
            submitted := [] } : CrawlResult).visited.length : Int) ≤
        ({ start_url := none, max_pages := -1 } : CrawlRequest).max_pages) := by
  constructor
  · have hv : is_valid_mezzofy_url
        (defaultedStart { start_url := none, max_pages := -1 }) = true := by decide
    simp only [crawl, hv, if_true]
    rw [crawlLoop_stop envNone saveOkAll (-1)
      (defaultedStart { start_url := none, max_pages := -1 }) [] [] 0 [] [] [] (by decide)]
  · decide

/-- C4 (amended): for every environment and request with
`max_pages >= 0`, a successful crawl satisfies
`visited_count <= max_pages` (the loop admits a URL only while the
visited set is strictly below the budget). -/
theorem C4_budget (env : CrawlEnv) (saveOk : Page → Bool) (req : CrawlRequest)
    (r : CrawlResult) (hmp : 0 ≤ req.max_pages)
    (hok : crawl env saveOk req = .ok r) :
    (r.visited.length : Int) ≤ req.max_pages := by
  by_cases hv : is_valid_mezzofy_url (defaultedStart req) = true
  · simp only [crawl, hv, if_true] at hok
    obtain rfl := (Except.ok.inj hok).symm
    apply crawlLoop_budget
    simpa using hmp
  · simp [crawl, bool_not_true hv] at hok

/-- Witness for C4 (amended): the defaulted request with the default
budget of 20 stays within the bound. -/
theorem C4_budget_witness :
    ((({ visited := [BASE_DOMAIN], saved := 0, fetched := [BASE_DOMAIN],
          extracted := [], submitted := [] } : CrawlResult).visited.length : Int) ≤
      ({ start_url := none, max_pages := 20 } : CrawlRequest).max_pages) :=
  C4_budget envNone saveOkAll { start_url := none, max_pages := 20 } _
    (by decide) crawl_envNone_default

/-- C5: within one crawl invocation no URL is passed to `fetch_page`
twice and the visited list stays duplicate-free; the link-discovery
loop preserves a duplicate-free queue; a URL it adds to the queue
(beyond what was already queued) always passes the scope check and is
not in the visited set (necessity of the enqueue condition); a
discovered href that is not skipped and whose absolute URL passes the
scope check, is unvisited and is not yet queued is enqueued exactly
there (the enqueue step equation); and every discovered, non-skipped,
in-scope, unvisited URL is present in the returned queue
(sufficiency). -/
theorem C5_no_duplicate_fetch :
    (∀ (env : CrawlEnv) (saveOk : Page → Bool) (mp : Int) (start : String),
      (crawlLoop env saveOk mp [start] [] 0 [] [] []).fetched.Nodup ∧
        (crawlLoop env saveOk mp [start] [] 0 [] [] []).visited.Nodup) ∧
    (∀ (env : CrawlEnv) (c : String) (vis queue hrefs : List String),
      queue.Nodup → (addLinks env c vis queue hrefs).Nodup) ∧
    (∀ (env : CrawlEnv) (c : String) (vis queue hrefs : List String) (u : String),
      u ∈ addLinks env c vis queue hrefs →
        u ∈ queue ∨ (is_valid_mezzofy_url u = true ∧ memStr u vis = false)) ∧
    (∀ (env : CrawlEnv) (c : String) (vis queue : List String) (href : String)
        (rest : List String),
      pyStartsWith (pyStrip href) "#" = false →
      pyStartsWith (pyStrip href) "mailto:" = false →
      is_valid_mezzofy_url (env.urljoin c (pyStrip href)) = true →
      memStr (env.urljoin c (pyStrip href)) vis = false →
      memStr (env.urljoin c (pyStrip href)) queue = false →
      addLinks env c vis queue (href :: rest) =
        addLinks env c vis (queue ++ [env.urljoin c (pyStrip href)]) rest) ∧
    (∀ (env : CrawlEnv) (c : String) (vis queue hrefs : List String) (href : String),
      href ∈ hrefs →
      pyStartsWith (pyStrip href) "#" = false →
      pyStartsWith (pyStrip href) "mailto:" = false →
      is_valid_mezzofy_url (env.urljoin c (pyStrip href)) = true →
      memStr (env.urljoin c (pyStrip href)) vis = false →
      env.urljoin c (pyStrip href) ∈ addLinks env c vis queue hrefs) := by
  refine ⟨?_, ?_, ?_, ?_, ?_⟩
  · intro env saveOk mp start
    exact crawlLoop_nodup env saveOk mp [start] [] 0 [] [] []
      (fun u hu => absurd hu (List.not_mem_nil u)) List.nodup_nil List.nodup_nil
  · intro env c vis queue hrefs h
    exact addLinks_nodup env c vis hrefs queue h
  · intro env c vis queue hrefs u h
    exact addLinks_mem env c vis hrefs queue u h
  · intro env c vis queue href rest h1 h2 h3 h4 h5
    simp only [addLinks]
    rw [if_neg (by rw [h1, h2]; decide), if_pos (by rw [h3, h4, h5]; decide)]
  · intro env c vis queue hrefs href hm h1 h2 h3 h4
    exact addLinks_enqueues env c vis hrefs queue href hm h1 h2 h3 h4

/-- Witness for C5 at concrete inputs: all five conjuncts, with every
hypothesis discharged on concrete data. -/
theorem C5_no_duplicate_fetch_witness :
    ((crawlLoop envNone saveOkAll 20 [BASE_DOMAIN] [] 0 [] [] []).fetched.Nodup ∧
      (crawlLoop envNone saveOkAll 20 [BASE_DOMAIN] [] 0 [] [] []).visited.Nodup) ∧
    (addLinks envNone "x" [] ["https://www.mezzofy.com/a"] []).Nodup ∧
    ("https://www.mezzofy.com/a" ∈ ["https://www.mezzofy.com/a"] ∨
      (is_valid_mezzofy_url "https://www.mezzofy.com/a" = true ∧
        memStr "https://www.mezzofy.com/a" [] = false)) ∧
    (addLinks envNone "x" [] [] ["https://www.mezzofy.com/a"] =
      addLinks envNone "x" [] ["https://www.mezzofy.com/a"] []) ∧
    "https://www.mezzofy.com/a" ∈ addLinks envNone "x" [] [] ["https://www.mezzofy.com/a"] :=
  ⟨C5_no_duplicate_fetch.1 envNone saveOkAll 20 BASE_DOMAIN,
   C5_no_duplicate_fetch.2.1 envNone "x" [] ["https://www.mezzofy.com/a"] [] (by simp),
   C5_no_duplicate_fetch.2.2.1 envNone "x" [] ["https://www.mezzofy.com/a"] []
     "https://www.mezzofy.com/a" (by simp [addLinks]),
   C5_no_duplicate_fetch.2.2.2.1 envNone "x" [] [] "https://www.mezzofy.com/a" []
     (by decide) (by decide) (by decide) rfl rfl,
   C5_no_duplicate_fetch.2.2.2.2 envNone "x" [] [] ["https://www.mezzofy.com/a"]
     "https://www.mezzofy.com/a" (by simp) (by decide) (by decide) (by decide) rfl⟩

/-- C6: when `fetch_page` fails (timeout, transport error or non-200
status all yield `none`), the URL still counts as visited and is
logged as a fetch attempt, no links are discovered, nothing is
extracted or submitted, and the loop continues with the remaining
queue; in particular, if the fetch of the seed times out the crawl
returns `visited = 1`, `saved = 0` without a fatal error. -/
theorem C6_fetch_failure :
    (∀ (env : CrawlEnv) (saveOk : Page → Bool) (mp : Int) (c : String)
        (rest v : List String) (sv : Nat) (f : List String) (ex sb : List Page),
      fetch_page env c = none → memStr c v = false → ((v.length : Int) < mp) →
      crawlLoop env saveOk mp (c :: rest) v sv f ex sb =
        crawlLoop env saveOk mp rest (v ++ [c]) sv (f ++ [c]) ex sb) ∧
    (∀ (env : CrawlEnv) (saveOk : Page → Bool),
      fetch_page env BASE_DOMAIN = none →
      crawl env saveOk { start_url := none, max_pages := 20 } =
        .ok { visited := [BASE_DOMAIN], saved := 0, fetched := [BASE_DOMAIN],
              extracted := [], submitted := [] }) := by
  constructor
  · intro env saveOk mp c rest v sv f ex sb hf hm hlt
    exact crawlLoop_fetchfail env saveOk mp c rest v sv f ex sb hlt hm hf
  · intro env saveOk hf
    have hv : is_valid_mezzofy_url
        (defaultedStart { start_url := none, max_pages := 20 }) = true := by decide
    simp only [crawl, hv, if_true]
    rw [show defaultedStart { start_url := none, max_pages := 20 } = BASE_DOMAIN from rfl]
    rw [crawlLoop_fetchfail env saveOk 20 BASE_DOMAIN [] [] 0 [] [] []
      (by decide) rfl hf, crawlLoop_nil]
    rfl

/-- Witness for C6: the all-timeouts environment. -/
theorem C6_fetch_failure_witness :
    crawlLoop envNone saveOkAll 20 [BASE_DOMAIN] [] 0 [] [] [] =
      crawlLoop envNone saveOkAll 20 [] [BASE_DOMAIN] 0 [BASE_DOMAIN] [] [] ∧
    crawl envNone saveOkAll { start_url := none, max_pages := 20 } =
      .ok { visited := [BASE_DOMAIN], saved := 0, fetched := [BASE_DOMAIN],
            extracted := [], submitted := [] } :=
  ⟨C6_fetch_failure.1 envNone saveOkAll 20 BASE_DOMAIN [] [] 0 [] [] [] rfl rfl (by decide),
   C6_fetch_failure.2 envNone saveOkAll rfl⟩

/-- C7: `keywords_matched` contains exactly the fixed keywords that
occur as substrings of the lower-cased full visible text, sorted
lexicographically on the literal keyword string and duplicate-free. -/
theorem C7_keyword_matching (url : String) (soup : PySoup) :
    (∀ kw, kw ∈ (extract_info url soup).keywords_matched ↔
      kw ∈ KEYWORDS ∧ strContains (pyLower soup.allText) kw = true) ∧
    (extract_info url soup).keywords_matched.Pairwise (fun a b => strLe a b = true) ∧
    (extract_info url soup).keywords_matched.Nodup := by
  refine ⟨extract_info_keywords url soup, ?_, ?_⟩
  · show (sortStrings (dedupStr _)).Pairwise _
    exact pairwise_sortStrings _
  · show (sortStrings (dedupStr _)).Nodup
    exact nodup_sortStrings _ (nodup_dedupStr _)

/-- C8: the snippet is the trimmed text of the first paragraph
truncated to its first 240 codepoints, absent exactly when there is no
paragraph or its text is empty, and its length never exceeds 240. -/
theorem C8_snippet (url : String) (soup : PySoup) :
    ((extract_info url soup).snippet = none ↔
      (soup.firstPText = none ∨ soup.firstPText = some "")) ∧
    (∀ t, soup.firstPText = some t → t ≠ "" →
      (extract_info url soup).snippet = some (pyTake 240 (pyStrip t))) ∧
    (∀ s, (extract_info url soup).snippet = some s → s.length ≤ 240) := by
  refine ⟨?_, ?_, ?_⟩
  · rw [extract_info_snippet]
    cases hp : soup.firstPText with
    | none => simp
    | some t =>
      by_cases ht : t = ""
      · simp [ht]
      · simp [ht]
  · intro t hp ht
    rw [extract_info_snippet, hp]
    simp [ht]
  · intro s hs
    rw [extract_info_snippet] at hs
    cases hp : soup.firstPText with
    | none => rw [hp] at hs; exact absurd hs (by simp)
    | some t =>
      rw [hp] at hs
      have hs' : (if t = "" then none else some (pyTake 240 (pyStrip t))) = some s := hs
      by_cases ht : t = ""
      · rw [if_pos ht] at hs'
        exact Option.noConfusion hs'
      · rw [if_neg ht] at hs'
        obtain rfl := Option.some.inj hs'
        show ((pyStrip t).data.take 240).length ≤ 240
        rw [List.length_take]
        exact Nat.min_le_left _ _

/-- Witness for C8 at a concrete paragraph. -/
theorem C8_snippet_witness :
    (extract_info BASE_DOMAIN { firstPText := some "  hello world  " }).snippet =
        some (pyTake 240 (pyStrip "  hello world  ")) ∧
    (pyTake 240 (pyStrip "  hello world  ")).length ≤ 240 :=
  ⟨(C8_snippet BASE_DOMAIN { firstPText := some "  hello world  " }).2.1
      "  hello world  " rfl (by decide),
   (C8_snippet BASE_DOMAIN { firstPText := some "  hello world  " }).2.2
      (pyTake 240 (pyStrip "  hello world  "))
      ((C8_snippet BASE_DOMAIN { firstPText := some "  hello world  " }).2.1
        "  hello world  " rfl (by decide))⟩

/-- C9 (counterexample): a whitespace-only `<title>` text is truthy in
Python, so the code returns its stripped value — the empty string —
rather than `None`: the title is present-but-empty, contradicting the
claim that it is absent whenever the text is empty after trimming. -/
theorem C9_counterexample :
    (extract_info "https://www.mezzofy.com" { titleStr := some "   " }).title = some "" ∧
    (extract_info "https://www.mezzofy.com" { titleStr := some "   " }).title ≠ none := by
  constructor
  · decide
  · decide

/-- C9 (amended): the extracted title is the trimmed text of the title
element; it is absent iff the title element is missing or its raw text
is empty; a whitespace-only raw text yields the empty string as a
present title (not absence). -/
theorem C9_title (url : String) (soup : PySoup) :
    ((extract_info url soup).title = none ↔
      (soup.titleStr = none ∨ soup.titleStr = some "")) ∧
    (∀ s, soup.titleStr = some s → s ≠ "" →
      (extract_info url soup).title = some (pyStrip s)) := by
  constructor
  · rw [extract_info_title]
    cases hp : soup.titleStr with
    | none => simp
    | some s =>
      by_cases ht : s = ""
      · simp [ht]
      · simp [ht]
  · intro s hp ht
    rw [extract_info_title, hp]
    simp [ht]

/-- Witness for C9 (amended): a padded title is trimmed. -/
theorem C9_title_witness :
    (extract_info BASE_DOMAIN { titleStr := some " Mezzofy " }).title =
      some (pyStrip " Mezzofy ") :=
  (C9_title BASE_DOMAIN { titleStr := some " Mezzofy " }).2 " Mezzofy " rfl (by decide)

/-- C10: with a valid in-scope start URL and `max_pages <= 0`, the
crawl loop never runs: no URL is fetched and the call returns
`visited = 0`, `saved = 0`. -/
theorem C10_nonpositive_budget (env : CrawlEnv) (saveOk : Page → Bool)
    (req : CrawlRequest) (hmp : req.max_pages ≤ 0)
    (hv : is_valid_mezzofy_url (defaultedStart req) = true) :
    crawl env saveOk req =
      .ok { visited := [], saved := 0, fetched := [], extracted := [], submitted := [] } := by
  simp only [crawl, hv, if_true]
  rw [crawlLoop_stop env saveOk req.max_pages (defaultedStart req) [] [] 0 [] [] [] (by
    show ¬ ((([] : List String).length : Int) < req.max_pages)
    simp only [List.length_nil, Nat.cast_zero]
    omega)]

/-- Witness for C10: the defaulted start URL with a zero budget. -/
theorem C10_nonpositive_budget_witness :
    crawl envNone saveOkAll { start_url := none, max_pages := 0 } =
      .ok { visited := [], saved := 0, fetched := [], extracted := [], submitted := [] } :=
  C10_nonpositive_budget envNone saveOkAll { start_url := none, max_pages := 0 }
    (by decide) (by decide)

end Crawler


